import Mathlib

set_option maxHeartbeats 1000000

/-!
Shallow embedding of the `ai-gettext-translator` tool (Rust sources
`src/translator.rs`, `src/openai.rs`, `src/inline.rs`).

Rust `Result`s are embedded as `Outcome`: `.ok` / `.error` mirror
`Ok` / `Err(anyhow::Error)`, and `.panic` marks executions in which the Rust
code panics (out-of-range slice or `Vec` index), which is not an error value
the caller can observe.
-/

inductive Outcome (α : Type) where
  | ok (val : α)
  | error (msg : String)
  | panic (msg : String)
deriving DecidableEq

def Outcome.bind {α β : Type} : Outcome α → (α → Outcome β) → Outcome β
  | .ok a, f => f a
  | .error m, _ => .error m
  | .panic m, _ => .panic m

def Outcome.isPanic {α : Type} : Outcome α → Bool
  | .panic _ => true
  | _ => false

def Outcome.isOk {α : Type} : Outcome α → Bool
  | .ok _ => true
  | _ => false

/-- Model of Rust `str::starts_with` on unicode scalar values. -/
def strStartsWith (s p : String) : Bool :=
  p.toList.isPrefixOf s.toList

/-- Reading `lines[i]` for an index that the source has already bounds-checked
(`Vec<String>` indexing); out-of-range defaults are never reached on the
checked paths. -/
def getL (lines : List String) (i : Nat) : String :=
  lines.getD i ""

/-- Index of the last occurrence of a character satisfying `p`
(model of Rust `str::rfind` restricted to a char pattern). -/
def rfindIdx (p : Char → Bool) (cs : List Char) : Option Nat :=
  (List.findIdx? p cs.reverse).map (fun j => cs.length - 1 - j)

/-- Model of `extract_po_string` (src/translator.rs:159-168): takes the substring
strictly between the first and the last `"` character.  Both `find` and
`rfind` failing yield the `Malformed .po line` error; when the line holds a
single `"`, `quote_start = quote_end` and the Rust slice
`line[quote_start + 1..quote_end]` has its start after its end, which panics. -/
def extract_po_string (line : String) : Outcome String :=
  let cs := line.toList
  match List.findIdx? (fun c => c == '\"') cs with
  | none => .error ("Malformed .po line: " ++ line)
  | some qs =>
    match rfindIdx (fun c => c == '\"') cs with
    | none => .error ("Malformed .po line: " ++ line)
    | some qe =>
      if qs + 1 ≤ qe then
        .ok (((cs.drop (qs + 1)).take (qe - (qs + 1))).asString)
      else
        .panic ("slice index starts at " ++ toString (qs + 1) ++
          " but ends at " ++ toString qe)

/-- Model of `is_msgid` (src/translator.rs:94-96). -/
def is_msgid (line : String) : Bool :=
  strStartsWith line "msgid "

/-- Model of `try_translate_singular` (src/translator.rs:100-123).  The `&mut [String]`
becomes lines-in/lines-out; `openai`/`lang` are abstracted as the `client`
function (`translate_msg` builds the request and calls `OpenAI::send`), and
`dry_run` is dropped because it only affects logging.  The guard models the
short-circuit `i + 1 >= lines.len() || !lines[i + 1].starts_with("msgstr")`. -/
def try_translate_singular (client : String → Outcome String) (force : Bool)
    (lines : List String) (i : Nat) : Outcome (Option (List String × Nat)) :=
  if lines.length ≤ i + 1 then .ok none
  else if strStartsWith (getL lines (i + 1)) "msgstr" then
    (extract_po_string (getL lines i)).bind fun msgid =>
    (extract_po_string (getL lines (i + 1))).bind fun msgstr =>
    if msgstr.toList.isEmpty || force then
      (client msgid).bind fun translated =>
        .ok (some (lines.set (i + 1) ("msgstr \"" ++ translated ++ "\""), 1))
    else .ok none
  else .ok none

/-- Model of `try_translate_plural` (src/translator.rs:127-156). -/
def try_translate_plural (client : String → Outcome String) (force : Bool)
    (lines : List String) (i : Nat) : Outcome (Option (List String × Nat)) :=
  if lines.length ≤ i + 3 then .ok none
  else if strStartsWith (getL lines (i + 1)) "msgid_plural" &&
      strStartsWith (getL lines (i + 2)) "msgstr[0]" then
    (extract_po_string (getL lines (i + 1))).bind fun msgid_plural =>
    (extract_po_string (getL lines (i + 2))).bind fun msgstr0 =>
    (extract_po_string (getL lines (i + 3))).bind fun msgstr1 =>
    if msgstr0.toList.isEmpty || msgstr1.toList.isEmpty || force then
      (client msgid_plural).bind fun translated =>
        .ok (some ((lines.set (i + 2) ("msgstr[0] \"" ++ translated ++ "\"")).set
          (i + 3) ("msgstr[1] \"" ++ translated ++ "\""), 1))
    else .ok none
  else .ok none

/-- The `while i < lines.len()` scan of `process_po_file`
(src/translator.rs:52-73).  The loop advances `i` by at least 1 per
iteration, so `fuel = lines.length` makes the fuel-exhaustion base case
(`fuel = 0` with `i` already past the end) coincide with loop exit;
structural recursion on fuel keeps the definition kernel-reducible. -/
def scanPoAux (client : String → Outcome String) (force : Bool) :
    Nat → List String → Nat → Nat → Outcome (List String × Nat)
  | 0, lines, _, changes => .ok (lines, changes)
  | fuel + 1, lines, i, changes =>
    if lines.length ≤ i then .ok (lines, changes)
    else if is_msgid (getL lines i) then
      match try_translate_singular client force lines i with
      | .error m => .error m
      | .panic m => .panic m
      | .ok (some (lines2, r)) => scanPoAux client force fuel lines2 (i + 2) (changes + r)
      | .ok none =>
        match try_translate_plural client force lines i with
        | .error m => .error m
        | .panic m => .panic m
        | .ok (some (lines2, r)) => scanPoAux client force fuel lines2 (i + 4) (changes + r)
        | .ok none => scanPoAux client force fuel lines (i + 1) changes
    else scanPoAux client force fuel lines (i + 1) changes

def scan_po (client : String → Outcome String) (force : Bool)
    (lines : List String) : Outcome (List String × Nat) :=
  scanPoAux client force lines.length lines 0 0

/-- Split on `'\n'`, keeping every segment (`"a\nb" ↦ ["a","b"]`,
`"" ↦ [""]`, `"a\n" ↦ ["a",""]`). -/
def splitNl : List Char → List (List Char)
  | [] => [[]]
  | c :: cs =>
    if c = '\n' then [] :: splitNl cs
    else
      match splitNl cs with
      | [] => [[c]]
      | seg :: rest => (c :: seg) :: rest

def stripTrailingCR (seg : List Char) : List Char :=
  if seg.getLast? = some '\r' then seg.dropLast else seg

/-- Model of Rust `str::lines` as used by `process_po_file`
(src/translator.rs:50).  Every segment terminated by `'\n'` loses the
terminator and then, when present, the `'\r'` of a `"\r\n"` sequence; the
final line ending is optional (content ending in `'\n'` produces no extra
empty line), and a final segment not terminated by `'\n'` is kept verbatim:
a bare trailing `'\r'` is not a line terminator and survives.  An empty
content yields no line at all. -/
def rustLines (s : String) : List String :=
  match s.toList with
  | [] => []
  | c :: cs =>
    let segs := splitNl (c :: cs)
    let terminated := segs.dropLast.map stripTrailingCR
    let final := segs.getLast?.getD []
    (if final.isEmpty then terminated else terminated ++ [final]).map
      List.asString

/-- Rust `Vec::join("\n")`, used at src/translator.rs:84. -/
def joinNl : List String → String
  | [] => ""
  | [l] => l
  | l :: l' :: ls => l ++ "\n" ++ joinNl (l' :: ls)

/-- Model of `process_po_file` (src/translator.rs:42-91) on a content string already
read from disk: returns the content that would be written back (`some w`
exactly when `changes > 0 && !dry_run`, src/translator.rs:75-85) together
with the change count. -/
def process_po_file (client : String → Outcome String) (force dry_run : Bool)
    (content : String) : Outcome (Option String × Nat) :=
  (scan_po client force (rustLines content)).bind fun res =>
    if 0 < res.2 ∧ ¬dry_run then .ok (some (joinNl res.1), res.2)
    else .ok (none, res.2)

/-! ## Translation client (src/openai.rs) -/

structure ContentLine where
  text : String
deriving DecidableEq

structure ResponseContent where
  content : List ContentLine
deriving DecidableEq

/-- Response type `AiReponse` (src/openai.rs:27-30; the source misspells "Response"). -/
structure AiReponse where
  output : List ResponseContent
deriving DecidableEq

/-- Rust `str::trim_matches('"')` (src/openai.rs:113): strips every leading
and every trailing occurrence of the pattern character. -/
def rustTrimMatches (pat : Char) (s : String) : String :=
  (((s.toList.dropWhile (fun c => c == pat)).reverse.dropWhile
    (fun c => c == pat)).reverse).asString

/-- Model of `OpenAI::extract_translation_result` (src/openai.rs:111-114):
`response.output[0].content[0].text` — `Vec` indexing panics when either
list is empty — then `trim_matches('"')`. -/
def extract_translation_result (response : AiReponse) : Outcome String :=
  match response.output with
  | [] => .panic "index out of bounds: the len is 0 but the index is 0"
  | o :: _ =>
    match o.content with
    | [] => .panic "index out of bounds: the len is 0 but the index is 0"
    | c :: _ => .ok (rustTrimMatches '\"' c.text)

/-- Result of one HTTP POST in `OpenAI::send`: transport failure
(`Err` from `send().await`), a non-OK status, or an OK status whose JSON
body parsed as `AiReponse`. -/
inductive CallResult where
  | transportErr (msg : String)
  | badStatus
  | okResponse (resp : AiReponse)

/-- Outcome of `retry` (src/openai.rs:97-108).  `result` is `Ok` with the
incremented retry counter or the bail-out error.  The source computes
`wait = 2u64.pow(*retries) * 100` and evaluates `sleep(Duration::from_millis(wait))`,
but binds the returned future to `_` without `.await`ing it
(src/openai.rs:104), so the future is dropped and no time is ever awaited:
`createdSleepMs` records the duration of the constructed future,
`awaitedSleepMs` the duration actually awaited before returning. -/
structure RetryOutcome where
  result : Except String Nat
  createdSleepMs : Option Nat
  awaitedSleepMs : Option Nat

def retry (max_retries retries : Nat) (_err : String) : RetryOutcome :=
  if max_retries < retries then
    { result := .error ("Failed after " ++ toString max_retries ++ " retries"),
      createdSleepMs := none, awaitedSleepMs := none }
  else
    { result := .ok (retries + 1),
      createdSleepMs := some (2 ^ retries * 100),
      awaitedSleepMs := none }

/-- Trace of one `OpenAI::send` call: its final result, how many HTTP
requests were issued, and the backoff sleeps created resp. awaited. -/
structure SendTrace where
  result : Outcome String
  calls : Nat
  createdSleeps : List Nat
  awaitedSleeps : List Nat
deriving DecidableEq

/-- The `loop` of `OpenAI::send` (src/openai.rs:64-95).  `oracle k` is the
result of the HTTP call made while `retries = k` (the counter increments by
one after every failed call, so `k` numbers the calls from 0).  One unit of
fuel per iteration; the loop runs at most `max_retries + 2` iterations, so
the fuel-exhaustion branch is unreachable from `send` below. -/
def sendAux (oracle : Nat → CallResult) (max_retries : Nat) :
    Nat → Nat → SendTrace
  | _, 0 => { result := .panic "out of fuel", calls := 0,
              createdSleeps := [], awaitedSleeps := [] }
  | retries, fuel + 1 =>
    match oracle retries with
    | .okResponse resp =>
      { result := extract_translation_result resp, calls := 1,
        createdSleeps := [], awaitedSleeps := [] }
    | .transportErr msg =>
      let ro := retry max_retries retries msg
      match ro.result with
      | .error m => { result := .error m, calls := 1,
                      createdSleeps := [], awaitedSleeps := [] }
      | .ok retries' =>
        let rest := sendAux oracle max_retries retries' fuel
        { result := rest.result, calls := rest.calls + 1,
          createdSleeps := ro.createdSleepMs.toList ++ rest.createdSleeps,
          awaitedSleeps := ro.awaitedSleepMs.toList ++ rest.awaitedSleeps }
    | .badStatus =>
      let ro := retry max_retries retries "TOO_MANY_REQUESTS"
      match ro.result with
      | .error m => { result := .error m, calls := 1,
                      createdSleeps := [], awaitedSleeps := [] }
      | .ok retries' =>
        let rest := sendAux oracle max_retries retries' fuel
        { result := rest.result, calls := rest.calls + 1,
          createdSleeps := ro.createdSleepMs.toList ++ rest.createdSleeps,
          awaitedSleeps := ro.awaitedSleepMs.toList ++ rest.awaitedSleeps }

/-- Model of `OpenAI::send` (src/openai.rs:64-95): `retries = 0`, `max_retries = 5`. -/
def send (oracle : Nat → CallResult) : SendTrace :=
  sendAux oracle 5 0 (5 + 2)

/-- An oracle whose first `n` calls fail at transport level and whose later
calls return a response carrying `t`. -/
def stepOracle (n : Nat) (t : String) : Nat → CallResult :=
  fun k => if k < n then .transportErr "connection error"
           else .okResponse ⟨[⟨[⟨t⟩]⟩]⟩

def alwaysFailOracle : Nat → CallResult :=
  fun _ => .transportErr "connection error"

/-! ## Inline literal scanner (src/inline.rs) -/

/-- Index of the leftmost occurrence of `pat` in `s` (Rust substring
search, as performed by `str::replace`). -/
def findSub (s pat : List Char) : Option Nat :=
  match s with
  | [] => if pat.isEmpty then some 0 else none
  | c :: cs =>
    if pat.isPrefixOf (c :: cs) then some 0
    else (findSub cs pat).map (fun j => j + 1)

/-- Replace the leftmost occurrences of `pat` by `rep`, left to right and
non-overlapping.  Faithful to Rust `str::replace` for non-empty patterns;
fuel bounds the number of replacements. -/
def replaceAllAux (pat rep : List Char) : Nat → List Char → List Char
  | 0, s => s
  | fuel + 1, s =>
    match findSub s pat with
    | none => s
    | some i =>
      s.take i ++ rep ++ replaceAllAux pat rep fuel (s.drop (i + pat.length))

/-- Rust `str::replace` (src/inline.rs:81 and 86). -/
def rustReplace (s pat rep : String) : String :=
  (replaceAllAux pat.toList rep.toList (s.toList.length + 1) s.toList).asString

/-- The per-capture loop of `translate_gettext_strings`
(src/inline.rs:67-91).  Each capture is the pair (whole match `&cap[0]`,
payload `&cap[1]`) produced by the gettext call pattern over the original
content; the regex engine itself is abstracted as this capture list.  The
accumulator carries `modified` and `any_changes`. -/
def tgsAux (client : String → Outcome String) :
    List (String × String) → String → Bool → Outcome (String × Bool)
  | [], modified, any_changes => .ok (modified, any_changes)
  | (original, text) :: rest, modified, any_changes =>
    (client text).bind fun translation =>
      let new_text := rustReplace original text translation
      if original ≠ new_text then
        tgsAux client rest (rustReplace modified original new_text) true
      else
        tgsAux client rest modified any_changes

def translate_gettext_strings (client : String → Outcome String)
    (caps : List (String × String)) (content : String) :
    Outcome (String × Bool) :=
  tgsAux client caps content false

/-! ## Catalog predicates used to state the scan properties -/

def extracts_ok (line : String) : Bool :=
  (extract_po_string line).isOk

def extracts_nonempty (line : String) : Bool :=
  match extract_po_string line with
  | .ok s => !s.toList.isEmpty
  | .error _ => false
  | .panic _ => false

/-- Every record the scan would recognize has well-formed quoted payloads and
a non-empty translation slot (resp. two non-empty slots for plurals).  The
cursor walks by 1: on such a catalog without force the scan never jumps. -/
def populatedFromAux : Nat → List String → Nat → Bool
  | 0, _, _ => true
  | fuel + 1, lines, i =>
    if lines.length ≤ i then true
    else
      (if is_msgid (getL lines i) then
         if lines.length ≤ i + 1 then true
         else if strStartsWith (getL lines (i + 1)) "msgstr" then
           extracts_ok (getL lines i) && extracts_nonempty (getL lines (i + 1))
         else if lines.length ≤ i + 3 then true
         else if strStartsWith (getL lines (i + 1)) "msgid_plural" &&
             strStartsWith (getL lines (i + 2)) "msgstr[0]" then
           extracts_ok (getL lines (i + 1)) &&
           extracts_nonempty (getL lines (i + 2)) &&
           extracts_nonempty (getL lines (i + 3))
         else true
       else true) && populatedFromAux fuel lines (i + 1)

def populated_po (lines : List String) : Bool :=
  populatedFromAux lines.length lines 0

/-- Every record the force-mode scan recognizes extracts all its quoted
payloads successfully; the cursor advances by 2 / 4 / 1 exactly as the
force-mode scan does. -/
def wellFormedFromAux : Nat → List String → Nat → Bool
  | 0, _, _ => true
  | fuel + 1, lines, i =>
    if lines.length ≤ i then true
    else if is_msgid (getL lines i) then
      if lines.length ≤ i + 1 then wellFormedFromAux fuel lines (i + 1)
      else if strStartsWith (getL lines (i + 1)) "msgstr" then
        extracts_ok (getL lines i) && extracts_ok (getL lines (i + 1)) &&
          wellFormedFromAux fuel lines (i + 2)
      else if lines.length ≤ i + 3 then wellFormedFromAux fuel lines (i + 1)
      else if strStartsWith (getL lines (i + 1)) "msgid_plural" &&
          strStartsWith (getL lines (i + 2)) "msgstr[0]" then
        extracts_ok (getL lines (i + 1)) && extracts_ok (getL lines (i + 2)) &&
          extracts_ok (getL lines (i + 3)) && wellFormedFromAux fuel lines (i + 4)
      else wellFormedFromAux fuel lines (i + 1)
    else wellFormedFromAux fuel lines (i + 1)

def well_formed_po (lines : List String) : Bool :=
  wellFormedFromAux lines.length lines 0

/-- Number of well-formed records in the file: one per singular record and
one per plural record, recognized at the positions the force-mode scan
visits. -/
def countRecordsAux : Nat → List String → Nat → Nat
  | 0, _, _ => 0
  | fuel + 1, lines, i =>
    if lines.length ≤ i then 0
    else if is_msgid (getL lines i) then
      if lines.length ≤ i + 1 then countRecordsAux fuel lines (i + 1)
      else if strStartsWith (getL lines (i + 1)) "msgstr" then
        1 + countRecordsAux fuel lines (i + 2)
      else if lines.length ≤ i + 3 then countRecordsAux fuel lines (i + 1)
      else if strStartsWith (getL lines (i + 1)) "msgid_plural" &&
          strStartsWith (getL lines (i + 2)) "msgstr[0]" then
        1 + countRecordsAux fuel lines (i + 4)
      else countRecordsAux fuel lines (i + 1)
    else countRecordsAux fuel lines (i + 1)

def count_records (lines : List String) : Nat :=
  countRecordsAux lines.length lines 0

/-! ## Helper lemmas -/

theorem getL_set_ne {lines : List String} {j k : Nat} {v : String} (h : j ≠ k) :
    getL (lines.set j v) k = getL lines k := by
  simp [getL, List.getD_eq_getElem?_getD, List.getElem?_set_ne h]

theorem getL_set_self {lines : List String} {k : Nat} {v : String}
    (h : k < lines.length) : getL (lines.set k v) k = v := by
  simp [getL, List.getD_eq_getElem?_getD, List.getElem?_set_self h]

theorem not_msgid_plural_of_msgstr {s : String}
    (h : strStartsWith s "msgstr" = true) :
    strStartsWith s "msgid_plural" = false := by
  unfold strStartsWith at h ⊢
  rw [List.isPrefixOf_iff_prefix] at h
  obtain ⟨t, ht⟩ := h
  rw [← ht]
  rfl

theorem dropWhile_self_of_head {p : Char → Bool} {l : List Char}
    (h : ∀ c, l.head? = some c → p c = false) : l.dropWhile p = l := by
  cases l with
  | nil => rfl
  | cons c cs => simp [List.dropWhile_cons, h c rfl]

theorem rustTrimMatches_of_no_edge_quote {t : String}
    (h1 : t.toList.head? ≠ some '\"') (h2 : t.toList.getLast? ≠ some '\"') :
    rustTrimMatches '\"' t = t := by
  have e1 : t.toList.dropWhile (fun c => c == '\"') = t.toList :=
    dropWhile_self_of_head (fun c hc => by
      simp only [beq_eq_false_iff_ne, ne_eq]
      intro he
      subst he
      exact h1 hc)
  have e2 : t.toList.reverse.dropWhile (fun c => c == '\"') = t.toList.reverse :=
    dropWhile_self_of_head (fun c hc => by
      rw [List.head?_reverse] at hc
      simp only [beq_eq_false_iff_ne, ne_eq]
      intro he
      subst he
      exact h2 hc)
  unfold rustTrimMatches
  rw [e1, e2, List.reverse_reverse]
  rfl

theorem sendAux_awaitedSleeps_nil (oracle : Nat → CallResult) (m : Nat) :
    ∀ (fuel retries : Nat), (sendAux oracle m retries fuel).awaitedSleeps = [] := by
  intro fuel
  induction fuel with
  | zero => intro retries; rfl
  | succ fuel ih =>
    intro retries
    simp only [sendAux]
    cases oracle retries with
    | okResponse resp => rfl
    | transportErr msg =>
      by_cases h : m < retries
      · simp [retry, h]
      · simp [retry, h, ih]
    | badStatus =>
      by_cases h : m < retries
      · simp [retry, h]
      · simp [retry, h, ih]

theorem findSub_spec : ∀ (s pat : List Char) (i : Nat), findSub s pat = some i →
    s.take i ++ pat ++ s.drop (i + pat.length) = s := by
  intro s
  induction s with
  | nil =>
    intro pat i h
    simp only [findSub] at h
    by_cases hp : pat.isEmpty = true
    · rw [if_pos hp] at h
      simp only [Option.some.injEq] at h
      subst h
      simp [List.isEmpty_iff.mp hp]
    · rw [if_neg hp] at h
      cases h
  | cons c cs ih =>
    intro pat i h
    simp only [findSub] at h
    by_cases hp : pat.isPrefixOf (c :: cs) = true
    · rw [if_pos hp] at h
      simp only [Option.some.injEq] at h
      subst h
      rw [List.isPrefixOf_iff_prefix] at hp
      obtain ⟨t, ht⟩ := hp
      rw [← ht]
      simp [List.drop_left']
    · rw [if_neg hp] at h
      cases hf : findSub cs pat with
      | none => rw [hf] at h; cases h
      | some j =>
        rw [hf] at h
        simp only [Option.map_some', Option.some.injEq] at h
        subst h
        have hj := ih pat j hf
        rw [List.take_succ_cons, show j + 1 + pat.length = (j + pat.length) + 1 from by omega,
          List.drop_succ_cons]
        simpa using congrArg (c :: ·) hj

theorem replaceAllAux_self (pat : List Char) : ∀ (fuel : Nat) (s : List Char),
    replaceAllAux pat pat fuel s = s := by
  intro fuel
  induction fuel with
  | zero => intro s; rfl
  | succ fuel ih =>
    intro s
    simp only [replaceAllAux]
    cases hf : findSub s pat with
    | none => rfl
    | some i =>
      simp only [ih]
      exact findSub_spec s pat i hf

theorem rustReplace_self (s pat : String) : rustReplace s pat pat = s := by
  unfold rustReplace
  rw [replaceAllAux_self]
  rfl

/-! ## Claim theorems -/

/-- C1: extraction of the quoted payload from `msgid "Hello"` yields `Hello`;
a line with zero quote characters fails with the MalformedLineError result and
that error aborts the scan of the whole file.  However, on a line with a
single quote character (no closing quote) `find` and `rfind` return the same
index and the slice `line[quote_start + 1..quote_end]` starts after its end,
so the code panics instead of returning the MalformedLineError the claim
requires. -/
theorem C1_extract_po_string_behavior :
    extract_po_string "msgid \"Hello\"" = .ok "Hello" ∧
    extract_po_string "msgstr" = .error "Malformed .po line: msgstr" ∧
    (extract_po_string "msgid \"Hello").isPanic = true ∧
    scan_po (fun s => .ok s) false ["msgid \"Hi\"", "msgstr"] =
      .error "Malformed .po line: msgstr" := by
  decide

/-- C2 counterexample: the claim says that with `max_retries = 5` the client
makes min(n+1, 6) attempts and never a 7th.  In the code `retry` only bails
once `retries > max_retries`, i.e. at retries = 6, so after 6 consecutive
failures a 7th call is still issued: with 6 failures and then a success the
trace shows 7 calls and a success, and with all calls failing it shows 7
calls, not 6. -/
theorem C2_counterexample_seventh_attempt :
    (send (stepOracle 6 "Hello")).calls = 7 ∧
    (send (stepOracle 6 "Hello")).result = .ok "Hello" ∧
    (send alwaysFailOracle).calls = 7 ∧
    ¬ (send alwaysFailOracle).calls = 6 := by
  decide

/-- C2 amended: with max_retries = 5 the attempt count is exactly
min(n+1, 7) when the first n calls fail: for n ≤ 6 consecutive failures
followed by a success the client makes exactly n+1 calls and returns the
success payload (the first text of the response, quote-trimmed), and when
every call fails it makes exactly 7 attempts and then fails with the error
reporting the retry budget `Failed after 5 retries`. -/
theorem C2_amended_retry_counts (t : String) (n : Nat) (hn : n ≤ 6) :
    (send (stepOracle n t)).calls = n + 1 ∧
    (send (stepOracle n t)).result = .ok (rustTrimMatches '\"' t) ∧
    (send alwaysFailOracle).calls = 7 ∧
    (send alwaysFailOracle).result = .error "Failed after 5 retries" := by
  refine ⟨?_, ?_, by decide, by decide⟩ <;>
    (interval_cases n <;> rfl)

theorem C2_amended_retry_counts_witness :
    (send (stepOracle 3 "Hello")).calls = 4 ∧
    (send (stepOracle 3 "Hello")).result = .ok (rustTrimMatches '\"' "Hello") ∧
    (send alwaysFailOracle).calls = 7 ∧
    (send alwaysFailOracle).result = .error "Failed after 5 retries" :=
  C2_amended_retry_counts "Hello" 3 (by decide)

/-- C3: the claim requires every retry to genuinely await a backoff sleep of
100·2^k ms before attempt k+1.  The code computes that duration and builds
the `sleep` future, but binds it to `_` without `.await` (src/openai.rs:104),
so the future is dropped: no run of `send` ever awaits a sleep, even though
the futures for 100·2^k ms are created.  First conjunct: no oracle behavior
whatsoever makes the client await a sleep. -/
theorem C3_backoff_sleep_never_awaited :
    (∀ oracle : Nat → CallResult, (send oracle).awaitedSleeps = []) ∧
    (send alwaysFailOracle).createdSleeps = [100, 200, 400, 800, 1600, 3200] ∧
    (send alwaysFailOracle).calls = 7 := by
  refine ⟨fun oracle => sendAux_awaitedSleeps_nil oracle 5 (5 + 2) 0, by decide, by decide⟩

/-- C4 counterexample: the claim says exactly one pair of surrounding quotes
is stripped, so `""Hello""` would keep its inner quotes and give `"Hello"`.
The code uses `trim_matches('"')`, which strips ALL leading and trailing
quote characters, giving `Hello`. -/
theorem C4_counterexample_trims_all_quotes :
    extract_translation_result ⟨[⟨[⟨"\"\"Hello\"\""⟩]⟩]⟩ = .ok "Hello" ∧
    ("Hello" : String) ≠ "\"Hello\"" := by
  decide

/-- C4 amended: on a successful response the client returns the text field of
the first content line of the first output item with ALL leading and trailing
quote characters stripped (`trim_matches('"')`): an input with no leading and
no trailing quote is returned unchanged, while `""Hello""` becomes `Hello`
(not `"Hello"`). -/
theorem C4_amended_trim_matches (t : String) (cs : List ContentLine)
    (os : List ResponseContent)
    (h1 : t.toList.head? ≠ some '\"') (h2 : t.toList.getLast? ≠ some '\"') :
    extract_translation_result ⟨⟨⟨t⟩ :: cs⟩ :: os⟩ = .ok t ∧
    extract_translation_result ⟨[⟨[⟨"\"\"Hello\"\""⟩]⟩]⟩ = .ok "Hello" := by
  refine ⟨?_, by decide⟩
  show Outcome.ok (rustTrimMatches '\"' t) = .ok t
  rw [rustTrimMatches_of_no_edge_quote h1 h2]

theorem C4_amended_trim_matches_witness :
    extract_translation_result ⟨⟨⟨"Plain"⟩ :: []⟩ :: []⟩ = .ok "Plain" ∧
    extract_translation_result ⟨[⟨[⟨"\"\"Hello\"\""⟩]⟩]⟩ = .ok "Hello" :=
  C4_amended_trim_matches "Plain" [] [] (by decide) (by decide)

/-- C9: extraction of the translated text indexes `output[0]` and
`content[0]` without any check: it panics when either list is empty, and is
total (returns `.ok` with the quote-trimmed text) exactly when both are
non-empty. -/
theorem C9_extract_translation_result_partiality :
    (extract_translation_result ⟨[]⟩).isPanic = true ∧
    (∀ os : List ResponseContent,
      (extract_translation_result ⟨⟨[]⟩ :: os⟩).isPanic = true) ∧
    (∀ (t : String) (cs : List ContentLine) (os : List ResponseContent),
      extract_translation_result ⟨⟨⟨t⟩ :: cs⟩ :: os⟩ =
        .ok (rustTrimMatches '\"' t)) := by
  exact ⟨by decide, fun os => rfl, fun t cs os => rfl⟩

/-- C7: translating a singular record rewrites exactly the `msgstr` line at
`i + 1` (every other line, in particular the `msgid` key line at `i`, is
unchanged); translating a plural record rewrites exactly the two slot lines
at `i + 2` and `i + 3`, both receiving the same translated text, while the
`msgid` and `msgid_plural` key lines at `i` and `i + 1` are unchanged. -/
theorem C7_record_frame_effect :
    (∀ (client : String → Outcome String) (force : Bool) (lines : List String)
        (i : Nat) (lines' : List String) (r : Nat),
        try_translate_singular client force lines i = .ok (some (lines', r)) →
        (∀ j, j ≠ i + 1 → getL lines' j = getL lines j) ∧
        getL lines' i = getL lines i ∧
        ∃ t, getL lines' (i + 1) = "msgstr \"" ++ t ++ "\"") ∧
    (∀ (client : String → Outcome String) (force : Bool) (lines : List String)
        (i : Nat) (lines' : List String) (r : Nat),
        try_translate_plural client force lines i = .ok (some (lines', r)) →
        (∀ j, j ≠ i + 2 → j ≠ i + 3 → getL lines' j = getL lines j) ∧
        getL lines' i = getL lines i ∧
        getL lines' (i + 1) = getL lines (i + 1) ∧
        ∃ t, getL lines' (i + 2) = "msgstr[0] \"" ++ t ++ "\"" ∧
             getL lines' (i + 3) = "msgstr[1] \"" ++ t ++ "\"") := by
  constructor
  · intro client force lines i lines' r h
    unfold try_translate_singular at h
    by_cases h1 : lines.length ≤ i + 1
    · rw [if_pos h1] at h; simp at h
    · rw [if_neg h1] at h
      by_cases h2 : strStartsWith (getL lines (i + 1)) "msgstr" = true
      · rw [if_pos h2] at h
        cases hm : extract_po_string (getL lines i) with
        | error m => rw [hm] at h; simp [Outcome.bind] at h
        | panic m => rw [hm] at h; simp [Outcome.bind] at h
        | ok msgid =>
          rw [hm] at h
          simp only [Outcome.bind] at h
          cases hs : extract_po_string (getL lines (i + 1)) with
          | error m => rw [hs] at h; simp [Outcome.bind] at h
          | panic m => rw [hs] at h; simp [Outcome.bind] at h
          | ok msgstr =>
            rw [hs] at h
            simp only [Outcome.bind] at h
            by_cases hemp : (msgstr.toList.isEmpty || force) = true
            · rw [if_pos hemp] at h
              cases hc : client msgid with
              | error m => rw [hc] at h; simp [Outcome.bind] at h
              | panic m => rw [hc] at h; simp [Outcome.bind] at h
              | ok tr =>
                rw [hc] at h
                simp only [Outcome.bind, Outcome.ok.injEq, Option.some.injEq,
                  Prod.mk.injEq] at h
                obtain ⟨hl, _⟩ := h
                subst hl
                refine ⟨fun j hj => getL_set_ne (Ne.symm hj),
                  getL_set_ne (by omega), tr, getL_set_self (by omega)⟩
            · rw [if_neg hemp] at h; simp at h
      · rw [if_neg h2] at h; simp at h
  · intro client force lines i lines' r h
    unfold try_translate_plural at h
    by_cases h1 : lines.length ≤ i + 3
    · rw [if_pos h1] at h; simp at h
    · rw [if_neg h1] at h
      by_cases h2 : (strStartsWith (getL lines (i + 1)) "msgid_plural" &&
          strStartsWith (getL lines (i + 2)) "msgstr[0]") = true
      · rw [if_pos h2] at h
        cases hm : extract_po_string (getL lines (i + 1)) with
        | error m => rw [hm] at h; simp [Outcome.bind] at h
        | panic m => rw [hm] at h; simp [Outcome.bind] at h
        | ok msgid_plural =>
          rw [hm] at h
          simp only [Outcome.bind] at h
          cases hs0 : extract_po_string (getL lines (i + 2)) with
          | error m => rw [hs0] at h; simp [Outcome.bind] at h
          | panic m => rw [hs0] at h; simp [Outcome.bind] at h
          | ok msgstr0 =>
            rw [hs0] at h
            simp only [Outcome.bind] at h
            cases hs1 : extract_po_string (getL lines (i + 3)) with
            | error m => rw [hs1] at h; simp [Outcome.bind] at h
            | panic m => rw [hs1] at h; simp [Outcome.bind] at h
            | ok msgstr1 =>
              rw [hs1] at h
              simp only [Outcome.bind] at h
              by_cases hemp : (msgstr0.toList.isEmpty || msgstr1.toList.isEmpty
                  || force) = true
              · rw [if_pos hemp] at h
                cases hc : client msgid_plural with
                | error m => rw [hc] at h; simp [Outcome.bind] at h
                | panic m => rw [hc] at h; simp [Outcome.bind] at h
                | ok tr =>
                  rw [hc] at h
                  simp only [Outcome.bind, Outcome.ok.injEq, Option.some.injEq,
                    Prod.mk.injEq] at h
                  obtain ⟨hl, _⟩ := h
                  subst hl
                  refine ⟨fun j hj2 hj3 =>
                      (getL_set_ne (Ne.symm hj3)).trans (getL_set_ne (Ne.symm hj2)),
                    (getL_set_ne (by omega)).trans (getL_set_ne (by omega)),
                    (getL_set_ne (by omega)).trans (getL_set_ne (by omega)),
                    tr,
                    (getL_set_ne (by omega)).trans (getL_set_self (by omega)),
                    getL_set_self (by simp [List.length_set]; omega)⟩
              · rw [if_neg hemp] at h; simp at h
      · rw [if_neg h2] at h; simp at h

theorem C7_record_frame_effect_witness :
    getL ["msgid \"Hi\"", "msgstr \"Hello\""] 0 =
      getL ["msgid \"Hi\"", "msgstr \"\""] 0 :=
  ((C7_record_frame_effect.1 (fun _ => Outcome.ok "Hello") false
      ["msgid \"Hi\"", "msgstr \"\""] 0 ["msgid \"Hi\"", "msgstr \"Hello\""] 1
      (by decide)).2).1

theorem singular_none_of_populated {client : String → Outcome String}
    {lines : List String} {i : Nat}
    (h1 : ¬ lines.length ≤ i + 1)
    (h2 : strStartsWith (getL lines (i + 1)) "msgstr" = true)
    (hok : extracts_ok (getL lines i) = true)
    (hne : extracts_nonempty (getL lines (i + 1)) = true) :
    try_translate_singular client false lines i = .ok none := by
  unfold try_translate_singular
  rw [if_neg h1, if_pos h2]
  unfold extracts_ok Outcome.isOk at hok
  unfold extracts_nonempty at hne
  cases hm : extract_po_string (getL lines i) with
  | error m => rw [hm] at hok; simp at hok
  | panic m => rw [hm] at hok; simp at hok
  | ok msgid =>
    simp only [Outcome.bind]
    cases hs : extract_po_string (getL lines (i + 1)) with
    | error m => rw [hs] at hne; simp at hne
    | panic m => rw [hs] at hne; simp at hne
    | ok msgstr =>
      rw [hs] at hne
      simp only [Bool.not_eq_eq_eq_not, Bool.not_true] at hne
      have hcond : ¬ ((msgstr.toList.isEmpty || false) = true) := by
        rw [hne]
        simp
      simp only [hcond, if_false, if_neg]
      rfl

theorem plural_none_of_msgstr {client : String → Outcome String} {force : Bool}
    {lines : List String} {i : Nat}
    (h2 : strStartsWith (getL lines (i + 1)) "msgstr" = true) :
    try_translate_plural client force lines i = .ok none := by
  unfold try_translate_plural
  by_cases h1 : lines.length ≤ i + 3
  · rw [if_pos h1]
  · rw [if_neg h1, not_msgid_plural_of_msgstr h2]
    simp

theorem plural_none_of_populated {client : String → Outcome String}
    {lines : List String} {i : Nat}
    (h1 : ¬ lines.length ≤ i + 3)
    (h2 : (strStartsWith (getL lines (i + 1)) "msgid_plural" &&
        strStartsWith (getL lines (i + 2)) "msgstr[0]") = true)
    (hok : extracts_ok (getL lines (i + 1)) = true)
    (hne0 : extracts_nonempty (getL lines (i + 2)) = true)
    (hne1 : extracts_nonempty (getL lines (i + 3)) = true) :
    try_translate_plural client false lines i = .ok none := by
  unfold try_translate_plural
  rw [if_neg h1, if_pos h2]
  unfold extracts_ok Outcome.isOk at hok
  unfold extracts_nonempty at hne0 hne1
  cases hm : extract_po_string (getL lines (i + 1)) with
  | error m => rw [hm] at hok; simp at hok
  | panic m => rw [hm] at hok; simp at hok
  | ok msgid_plural =>
    simp only [Outcome.bind]
    cases hs0 : extract_po_string (getL lines (i + 2)) with
    | error m => rw [hs0] at hne0; simp at hne0
    | panic m => rw [hs0] at hne0; simp at hne0
    | ok msgstr0 =>
      rw [hs0] at hne0
      simp only [Bool.not_eq_eq_eq_not, Bool.not_true] at hne0
      simp only [Outcome.bind]
      cases hs1 : extract_po_string (getL lines (i + 3)) with
      | error m => rw [hs1] at hne1; simp at hne1
      | panic m => rw [hs1] at hne1; simp at hne1
      | ok msgstr1 =>
        rw [hs1] at hne1
        simp only [Bool.not_eq_eq_eq_not, Bool.not_true] at hne1
        have hcond : ¬ ((msgstr0.toList.isEmpty || msgstr1.toList.isEmpty
            || false) = true) := by
          rw [hne0, hne1]
          simp
        simp only [hcond, if_false, if_neg]
        rfl

theorem scan_populated_aux (client : String → Outcome String) :
    ∀ (fuel : Nat) (lines : List String) (i changes : Nat),
      populatedFromAux fuel lines i = true →
      scanPoAux client false fuel lines i changes = .ok (lines, changes) := by
  intro fuel
  induction fuel with
  | zero => intro lines i changes _; rfl
  | succ fuel ih =>
    intro lines i changes hp
    simp only [populatedFromAux] at hp
    simp only [scanPoAux]
    by_cases hlen : lines.length ≤ i
    · rw [if_pos hlen]
    · rw [if_neg hlen] at hp ⊢
      rw [Bool.and_eq_true] at hp
      obtain ⟨hhead, htail⟩ := hp
      by_cases hm : is_msgid (getL lines i) = true
      · rw [if_pos hm] at hhead ⊢
        by_cases h1 : lines.length ≤ i + 1
        · have hsing : try_translate_singular client false lines i = .ok none := by
            unfold try_translate_singular
            rw [if_pos h1]
          have hplur : try_translate_plural client false lines i = .ok none := by
            unfold try_translate_plural
            rw [if_pos (by omega : lines.length ≤ i + 3)]
          rw [hsing, hplur]
          exact ih lines (i + 1) changes htail
        · rw [if_neg h1] at hhead
          by_cases h2 : strStartsWith (getL lines (i + 1)) "msgstr" = true
          · rw [if_pos h2] at hhead
            rw [Bool.and_eq_true] at hhead
            rw [singular_none_of_populated h1 h2 hhead.1 hhead.2,
              plural_none_of_msgstr h2]
            exact ih lines (i + 1) changes htail
          · rw [if_neg h2] at hhead
            have hsing : try_translate_singular client false lines i = .ok none := by
              unfold try_translate_singular
              rw [if_neg h1, if_neg h2]
            by_cases h3 : lines.length ≤ i + 3
            · have hplur : try_translate_plural client false lines i = .ok none := by
                unfold try_translate_plural
                rw [if_pos h3]
              rw [hsing, hplur]
              exact ih lines (i + 1) changes htail
            · rw [if_neg h3] at hhead
              by_cases h4 : (strStartsWith (getL lines (i + 1)) "msgid_plural" &&
                  strStartsWith (getL lines (i + 2)) "msgstr[0]") = true
              · rw [if_pos h4] at hhead
                rw [Bool.and_eq_true, Bool.and_eq_true] at hhead
                rw [hsing, plural_none_of_populated h3 h4 hhead.1.1 hhead.1.2 hhead.2]
                exact ih lines (i + 1) changes htail
              · have hplur : try_translate_plural client false lines i = .ok none := by
                  unfold try_translate_plural
                  rw [if_neg h3, if_neg h4]
                rw [hsing, hplur]
                exact ih lines (i + 1) changes htail
      · rw [if_neg hm]
        exact ih lines (i + 1) changes htail

/-- C5: on a catalog whose recognized singular and plural records all have
well-formed, non-empty translation slots, the scan with force unset performs
zero changes and leaves every line unchanged — for every translation client
whatsoever (the client is never invoked) — and `process_po_file` writes
nothing even outside dry-run mode. -/
theorem C5_populated_scan_is_noop (client : String → Outcome String)
    (content : String) (lines : List String)
    (hc : rustLines content = lines)
    (hp : populated_po lines = true) :
    scan_po client false lines = .ok (lines, 0) ∧
    process_po_file client false false content = .ok (none, 0) := by
  have hscan : scan_po client false lines = .ok (lines, 0) :=
    scan_populated_aux client lines.length lines 0 0 hp
  refine ⟨hscan, ?_⟩
  unfold process_po_file
  rw [hc, hscan]
  simp [Outcome.bind]

theorem C5_populated_scan_is_noop_witness :
    scan_po (fun _ => Outcome.error "service down") false
      ["msgid \"Hello\"", "msgstr \"Hola\"", "msgid \"Cat\"",
       "msgid_plural \"Cats\"", "msgstr[0] \"Gato\"", "msgstr[1] \"Gatos\""] =
      .ok (["msgid \"Hello\"", "msgstr \"Hola\"", "msgid \"Cat\"",
       "msgid_plural \"Cats\"", "msgstr[0] \"Gato\"", "msgstr[1] \"Gatos\""], 0) ∧
    process_po_file (fun _ => Outcome.error "service down") false false
      "msgid \"Hello\"\nmsgstr \"Hola\"\nmsgid \"Cat\"\nmsgid_plural \"Cats\"\nmsgstr[0] \"Gato\"\nmsgstr[1] \"Gatos\"" =
      .ok (none, 0) :=
  C5_populated_scan_is_noop (fun _ => Outcome.error "service down")
    "msgid \"Hello\"\nmsgstr \"Hola\"\nmsgid \"Cat\"\nmsgid_plural \"Cats\"\nmsgstr[0] \"Gato\"\nmsgstr[1] \"Gatos\""
    ["msgid \"Hello\"", "msgstr \"Hola\"", "msgid \"Cat\"",
     "msgid_plural \"Cats\"", "msgstr[0] \"Gato\"", "msgstr[1] \"Gatos\""]
    (by decide) (by decide)

theorem extracts_ok_iff {line : String} (h : extracts_ok line = true) :
    ∃ s, extract_po_string line = .ok s := by
  unfold extracts_ok Outcome.isOk at h
  cases hx : extract_po_string line with
  | ok s => exact ⟨s, rfl⟩
  | error m => rw [hx] at h; simp at h
  | panic m => rw [hx] at h; simp at h

theorem countRecordsAux_set (v : String) :
    ∀ (fuel : Nat) (lines : List String) (i j : Nat), j < i →
      countRecordsAux fuel (lines.set j v) i = countRecordsAux fuel lines i := by
  intro fuel
  induction fuel with
  | zero => intro lines i j hj; rfl
  | succ fuel ih =>
    intro lines i j hj
    simp only [countRecordsAux, List.length_set]
    rw [getL_set_ne (show j ≠ i from by omega),
      getL_set_ne (show j ≠ i + 1 from by omega),
      getL_set_ne (show j ≠ i + 2 from by omega),
      ih lines (i + 1) j (by omega), ih lines (i + 2) j (by omega),
      ih lines (i + 4) j (by omega)]

theorem wellFormedFromAux_set (v : String) :
    ∀ (fuel : Nat) (lines : List String) (i j : Nat), j < i →
      wellFormedFromAux fuel (lines.set j v) i = wellFormedFromAux fuel lines i := by
  intro fuel
  induction fuel with
  | zero => intro lines i j hj; rfl
  | succ fuel ih =>
    intro lines i j hj
    simp only [wellFormedFromAux, List.length_set]
    rw [getL_set_ne (show j ≠ i from by omega),
      getL_set_ne (show j ≠ i + 1 from by omega),
      getL_set_ne (show j ≠ i + 2 from by omega),
      getL_set_ne (show j ≠ i + 3 from by omega),
      ih lines (i + 1) j (by omega), ih lines (i + 2) j (by omega),
      ih lines (i + 4) j (by omega)]

theorem singular_force {f : String → String} {lines : List String} {i : Nat}
    {msgid msgstr : String}
    (h1 : ¬ lines.length ≤ i + 1)
    (h2 : strStartsWith (getL lines (i + 1)) "msgstr" = true)
    (hm : extract_po_string (getL lines i) = .ok msgid)
    (hs : extract_po_string (getL lines (i + 1)) = .ok msgstr) :
    try_translate_singular (fun s => Outcome.ok (f s)) true lines i =
      .ok (some (lines.set (i + 1) ("msgstr \"" ++ f msgid ++ "\""), 1)) := by
  unfold try_translate_singular
  rw [if_neg h1, if_pos h2, hm]
  simp only [Outcome.bind]
  rw [hs]
  simp [Outcome.bind]

theorem plural_force {f : String → String} {lines : List String} {i : Nat}
    {mp m0 m1 : String}
    (h3 : ¬ lines.length ≤ i + 3)
    (h4 : (strStartsWith (getL lines (i + 1)) "msgid_plural" &&
        strStartsWith (getL lines (i + 2)) "msgstr[0]") = true)
    (hm : extract_po_string (getL lines (i + 1)) = .ok mp)
    (hs0 : extract_po_string (getL lines (i + 2)) = .ok m0)
    (hs1 : extract_po_string (getL lines (i + 3)) = .ok m1) :
    try_translate_plural (fun s => Outcome.ok (f s)) true lines i =
      .ok (some ((lines.set (i + 2) ("msgstr[0] \"" ++ f mp ++ "\"")).set
        (i + 3) ("msgstr[1] \"" ++ f mp ++ "\""), 1)) := by
  unfold try_translate_plural
  rw [if_neg h3, if_pos h4, hm]
  simp only [Outcome.bind]
  rw [hs0]
  simp only [Outcome.bind]
  rw [hs1]
  simp [Outcome.bind]

theorem scan_force_count_aux (f : String → String) :
    ∀ (fuel : Nat) (lines : List String) (i changes : Nat),
      wellFormedFromAux fuel lines i = true →
      ∃ lines', scanPoAux (fun s => Outcome.ok (f s)) true fuel lines i changes =
        .ok (lines', changes + countRecordsAux fuel lines i) := by
  intro fuel
  induction fuel with
  | zero => intro lines i changes _; exact ⟨lines, by simp [scanPoAux, countRecordsAux]⟩
  | succ fuel ih =>
    intro lines i changes hw
    simp only [wellFormedFromAux] at hw
    simp only [scanPoAux, countRecordsAux]
    by_cases hlen : lines.length ≤ i
    · simp only [if_pos hlen]
      exact ⟨lines, by simp⟩
    · simp only [if_neg hlen] at hw ⊢
      by_cases hmsg : is_msgid (getL lines i) = true
      · simp only [if_pos hmsg] at hw ⊢
        by_cases h1 : lines.length ≤ i + 1
        · simp only [if_pos h1] at hw ⊢
          have hsing : try_translate_singular (fun s => Outcome.ok (f s)) true
              lines i = .ok none := by
            unfold try_translate_singular
            rw [if_pos h1]
          have hplur : try_translate_plural (fun s => Outcome.ok (f s)) true
              lines i = .ok none := by
            unfold try_translate_plural
            rw [if_pos (show lines.length ≤ i + 3 from by omega)]
          rw [hsing, hplur]
          exact ih lines (i + 1) changes hw
        · simp only [if_neg h1] at hw ⊢
          by_cases h2 : strStartsWith (getL lines (i + 1)) "msgstr" = true
          · simp only [if_pos h2] at hw ⊢
            rw [Bool.and_eq_true, Bool.and_eq_true] at hw
            obtain ⟨⟨hok1, hok2⟩, hwrec⟩ := hw
            obtain ⟨msgid, hm⟩ := extracts_ok_iff hok1
            obtain ⟨msgstr, hs⟩ := extracts_ok_iff hok2
            rw [singular_force h1 h2 hm hs]
            have hw2 : wellFormedFromAux fuel
                (lines.set (i + 1) ("msgstr \"" ++ f msgid ++ "\"")) (i + 2) = true := by
              rw [wellFormedFromAux_set _ fuel lines (i + 2) (i + 1) (by omega)]
              exact hwrec
            obtain ⟨lines', hres⟩ := ih _ (i + 2) (changes + 1) hw2
            rw [countRecordsAux_set _ fuel lines (i + 2) (i + 1) (by omega)] at hres
            rw [show changes + 1 + countRecordsAux fuel lines (i + 2) =
              changes + (1 + countRecordsAux fuel lines (i + 2)) from by omega] at hres
            exact ⟨lines', hres⟩
          · simp only [if_neg h2] at hw ⊢
            have hsing : try_translate_singular (fun s => Outcome.ok (f s)) true
                lines i = .ok none := by
              unfold try_translate_singular
              rw [if_neg h1, if_neg h2]
            rw [hsing]
            by_cases h3 : lines.length ≤ i + 3
            · simp only [if_pos h3] at hw ⊢
              have hplur : try_translate_plural (fun s => Outcome.ok (f s)) true
                  lines i = .ok none := by
                unfold try_translate_plural
                rw [if_pos h3]
              rw [hplur]
              exact ih lines (i + 1) changes hw
            · simp only [if_neg h3] at hw ⊢
              by_cases h4 : (strStartsWith (getL lines (i + 1)) "msgid_plural" &&
                  strStartsWith (getL lines (i + 2)) "msgstr[0]") = true
              · simp only [if_pos h4] at hw ⊢
                rw [Bool.and_eq_true, Bool.and_eq_true, Bool.and_eq_true] at hw
                obtain ⟨⟨⟨hok1, hok2⟩, hok3⟩, hwrec⟩ := hw
                obtain ⟨mp, hm⟩ := extracts_ok_iff hok1
                obtain ⟨m0, hs0⟩ := extracts_ok_iff hok2
                obtain ⟨m1, hs1⟩ := extracts_ok_iff hok3
                rw [plural_force h3 h4 hm hs0 hs1]
                have hw2 : wellFormedFromAux fuel
                    ((lines.set (i + 2) ("msgstr[0] \"" ++ f mp ++ "\"")).set
                      (i + 3) ("msgstr[1] \"" ++ f mp ++ "\"")) (i + 4) = true := by
                  rw [wellFormedFromAux_set _ fuel
                      (lines.set (i + 2) ("msgstr[0] \"" ++ f mp ++ "\""))
                      (i + 4) (i + 3) (by omega),
                    wellFormedFromAux_set _ fuel lines (i + 4) (i + 2) (by omega)]
                  exact hwrec
                obtain ⟨lines', hres⟩ := ih _ (i + 4) (changes + 1) hw2
                rw [countRecordsAux_set _ fuel
                    (lines.set (i + 2) ("msgstr[0] \"" ++ f mp ++ "\""))
                    (i + 4) (i + 3) (by omega),
                  countRecordsAux_set _ fuel lines (i + 4) (i + 2) (by omega)] at hres
                rw [show changes + 1 + countRecordsAux fuel lines (i + 4) =
                  changes + (1 + countRecordsAux fuel lines (i + 4)) from by omega] at hres
                exact ⟨lines', hres⟩
              · simp only [if_neg h4] at hw ⊢
                have hplur : try_translate_plural (fun s => Outcome.ok (f s)) true
                    lines i = .ok none := by
                  unfold try_translate_plural
                  rw [if_neg h3, if_neg h4]
                rw [hplur]
                exact ih lines (i + 1) changes hw
      · simp only [if_neg hmsg] at hw ⊢
        exact ih lines (i + 1) changes hw

/-- C6: for every catalog whose recognized records are well-formed (their
quoted payloads extract successfully) and every translation function, the
force-mode scan succeeds and reports a changed count equal to the number of
well-formed records — one per singular record and one per plural record —
regardless of whether their translation slots were empty or populated. -/
theorem C6_force_changes_all_records (f : String → String) (lines : List String)
    (hw : well_formed_po lines = true) :
    ∃ lines', scan_po (fun s => Outcome.ok (f s)) true lines =
      .ok (lines', count_records lines) := by
  obtain ⟨lines', h⟩ := scan_force_count_aux f lines.length lines 0 0 hw
  exact ⟨lines', by simpa using h⟩

theorem C6_force_changes_all_records_witness :
    ∃ lines', scan_po (fun s => Outcome.ok s) true
      ["msgid \"Hello\"", "msgstr \"Hola\"", "msgid \"Cat\"",
       "msgid_plural \"Cats\"", "msgstr[0] \"\"", "msgstr[1] \"Gatos\""] =
      .ok (lines', count_records
        ["msgid \"Hello\"", "msgstr \"Hola\"", "msgid \"Cat\"",
         "msgid_plural \"Cats\"", "msgstr[0] \"\"", "msgstr[1] \"Gatos\""]) :=
  C6_force_changes_all_records (fun s => s)
    ["msgid \"Hello\"", "msgstr \"Hola\"", "msgid \"Cat\"",
     "msgid_plural \"Cats\"", "msgstr[0] \"\"", "msgstr[1] \"Gatos\""]
    (by decide)

theorem tgsAux_echo (caps : List (String × String)) :
    ∀ (modified : String) (any_changes : Bool),
      tgsAux (fun s => Outcome.ok s) caps modified any_changes =
        .ok (modified, any_changes) := by
  induction caps with
  | nil => intro modified any_changes; rfl
  | cons cap rest ih =>
    intro modified any_changes
    obtain ⟨original, text⟩ := cap
    simp only [tgsAux, Outcome.bind, rustReplace_self]
    rw [if_neg (by simp)]
    exact ih modified any_changes

/-- C8: when the translation client deterministically echoes every captured
payload unchanged (already-English input), the inline scanner returns the
content unchanged with the changed flag false, for every capture list and
every content — so a second run on already-translated output changes
nothing.  A first run whose client returns `Hello` for the payload of
`gettext("Hola")` rewrites it to `gettext("Hello")` with the flag set. -/
theorem C8_inline_echo_no_change :
    (∀ (caps : List (String × String)) (content : String),
      translate_gettext_strings (fun s => Outcome.ok s) caps content =
        .ok (content, false)) ∧
    translate_gettext_strings (fun _ => Outcome.ok "Hello")
      [("gettext(\"Hola\")", "Hola")] "gettext(\"Hola\")" =
      .ok ("gettext(\"Hello\")", true) ∧
    translate_gettext_strings (fun s => Outcome.ok s)
      [("gettext(\"Hello\")", "Hello")] "gettext(\"Hello\")" =
      .ok ("gettext(\"Hello\")", false) := by
  exact ⟨fun caps content => tgsAux_echo caps content false, by decide, by decide⟩

/-- C10: whenever the scan changed at least one record and dry-run is unset,
the content written back is exactly the `lines()` decomposition of the
original content (with translated slot lines substituted) re-joined with a
single `\n`: Rust `lines()` drops the final line ending and strips the `\r`
of every `\r\n` line terminator — also on lines of records that were not
translated — as the second conjunct shows on a CRLF file whose `msgid` line
is untouched.  A bare trailing `\r` on a final line without `\n` is not a
line terminator and is written back verbatim (third conjunct, on an
untranslated final `msgid` line). -/
theorem C10_written_content_normalized (client : String → Outcome String)
    (force : Bool) (content : String) (lines' : List String) (c : Nat)
    (h : scan_po client force (rustLines content) = .ok (lines', c))
    (hc : 0 < c) :
    process_po_file client force false content = .ok (some (joinNl lines'), c) ∧
    process_po_file (fun _ => Outcome.ok "Hello") false false
      "msgid \"Hola\"\r\nmsgstr \"\"\n" =
      .ok (some "msgid \"Hola\"\nmsgstr \"Hello\"", 1) ∧
    process_po_file (fun _ => Outcome.ok "Hello") false false
      "msgid \"A\"\nmsgstr \"\"\nmsgid \"B\"\r" =
      .ok (some "msgid \"A\"\nmsgstr \"Hello\"\nmsgid \"B\"\r", 1) := by
  refine ⟨?_, by decide, by decide⟩
  unfold process_po_file
  rw [h]
  simp only [Outcome.bind]
  rw [if_pos ⟨hc, by simp⟩]

theorem C10_written_content_normalized_witness :
    process_po_file (fun _ => Outcome.ok "Hello") false false
      "msgid \"Hola\"\r\nmsgstr \"\"\n" =
      .ok (some (joinNl ["msgid \"Hola\"", "msgstr \"Hello\""]), 1) :=
  (C10_written_content_normalized (fun _ => Outcome.ok "Hello") false
    "msgid \"Hola\"\r\nmsgstr \"\"\n" ["msgid \"Hola\"", "msgstr \"Hello\""] 1
    (by decide) (by decide)).1
